import Mathlib

/-
  Verification development for the bounded-concurrency Cassandra query
  dispatcher (src/main.go).  The Go program reads a concurrency level C,
  a request count R and a key file, validates them, and then dispatches
  R point lookups against a store, bounding the number of simultaneously
  in-flight lookups with a buffered-channel semaphore of capacity C.

  The embedding below follows the source:
  - `QueryKey`, `keyFor` : the key record and the index-to-key mapping
    `allKeys[queryID % len(allKeys)]` (main.go line 104);
  - `mainModel` / `runSequential` : the fail-fast configuration checks
    (lines 30-60) and the per-request worker body (lines 104-121),
    with the store client abstracted as in the spec, a synchronous
    lookup returning found / not-found / error;
  - `DStep` / `Trace` : a labeled transition system for the dispatch
    loop (lines 95-125): the main loop acquires a semaphore slot
    (capacity C) before spawning the goroutine for the next index, and
    each goroutine releases its slot when it returns;
  - `RaceStep` : a read/write-level model of the unsynchronized
    `successfulQueries++` on line 116.
-/

namespace DaoCass

/-- The QueryKey struct (main.go lines 20-24): three identifying string
fields. -/
structure QueryKey where
  eqpModel : String
  strategyName : String
  jobID : String
deriving DecidableEq, Repr, Inhabited

/-- The index-to-key mapping from main.go line 104:
`key := allKeys[queryID%len(allKeys)]`.  Total via a default for the
empty list, which the program rejects before dispatch (line 58). -/
def keyFor (allKeys : List QueryKey) (queryID : Nat) : QueryKey :=
  allKeys.getD (queryID % allKeys.length) default

/-- Result of one synchronous store lookup, as the core consumes it
(spec interface: `lookup(Key) -> \x7bfound: bool\x7d | error`).  The Go code
observes it through `iter.Scan` and `iter.Close`. -/
inductive LookupResult where
  | found
  | notFound
  | failed (cause : String)
deriving DecidableEq, Repr

/-- Line 114: `iter.Scan(&dummy)` returns true exactly when a matching
row was found. -/
def scanReturnsRow : LookupResult → Bool
  | .found => true
  | .notFound => false
  | .failed _ => false

/-- Line 119: `iter.Close()` returns the error when the lookup failed,
nil otherwise. -/
def closeError : LookupResult → Option String
  | .failed c => some c
  | .found => none
  | .notFound => none

/-- The worker increments the success counter iff Scan returned a row
(lines 114-117). -/
def recordsSuccess (r : LookupResult) : Bool := scanReturnsRow r

/-- The worker logs a failure iff Close returned an error
(lines 119-121). -/
def logsFailure (r : LookupResult) : Bool := (closeError r).isSome

/-- Aggregate observable effects of a run: the success counter, the
failure log (index and cause, as in `log.Printf("Query %d failed: %v",
queryID, err)` on line 120) and the number of lookups performed. -/
structure RunResult where
  successes : Nat
  failures : List (Nat × String)
  lookups : Nat
deriving DecidableEq, Repr

/-- One worker body (main.go lines 104-121) acting on the aggregate
state: resolve the key, perform the lookup, increment on a found row,
log on error, always continue. -/
def workerStep (allKeys : List QueryKey) (client : Nat → QueryKey → LookupResult)
    (acc : RunResult) (i : Nat) : RunResult :=
  let r := client i (keyFor allKeys i)
  ⟨acc.successes + (if scanReturnsRow r then 1 else 0),
   acc.failures ++ (match closeError r with
     | some c => [(i, c)]
     | none => []),
   acc.lookups + 1⟩

/-- The run's aggregate effect under the serialized (C = 1) schedule:
the loop on lines 95-123 dispatches indices 0, 1, ..., R-1 and each
worker body runs to completion before the next starts. -/
def runSequential (R : Nat) (allKeys : List QueryKey)
    (client : Nat → QueryKey → LookupResult) : RunResult :=
  (List.range R).foldl (workerStep allKeys client) ⟨0, [], 0⟩

/-- The fail-fast configuration checks of main (lines 33-60): reject a
non-positive concurrency level, a non-positive query count, and an empty
key list, each with `log.Fatalf` before any worker is launched; only a
valid configuration reaches the dispatch loop. -/
def mainModel (concurrency numQueries : Int) (allKeys : List QueryKey)
    (client : Nat → QueryKey → LookupResult) : Except String RunResult :=
  if concurrency ≤ 0 then
    .error "Invalid concurrency level. Please provide a positive integer."
  else if numQueries ≤ 0 then
    .error "Invalid number of queries. Please provide a positive integer."
  else if allKeys.length = 0 then
    .error "No keys found in the JSON file. Please run the data inserter first."
  else
    .ok (runSequential numQueries.toNat allKeys client)

/-- Number of lookups attempted by a (possibly rejected) run: a rejected
configuration performs none. -/
def lookupsAttempted : Except String RunResult → Nat
  | .error _ => 0
  | .ok r => r.lookups

/-- State of the dispatch loop (main.go lines 95-125): `nextIndex` is
the loop variable `i`; `inFlight` is the set of indices whose goroutine
holds a semaphore slot (acquired by the main loop on line 97, released
by the goroutine on line 101) and has not yet returned. -/
structure DispatchState where
  nextIndex : Nat
  inFlight : Finset Nat
deriving DecidableEq

/-- Initial dispatcher state: the loop at `i = 0`, no goroutine running. -/
def initState : DispatchState := ⟨0, ∅⟩

/-- Observable events of the dispatch loop: `spawn i` is one iteration
of the main loop (semaphore acquire on line 97 followed by the `go`
statement on line 99 handing index `i` to a fresh goroutine);
`finish i r` is the goroutine for index `i` returning after its lookup
produced `r`, releasing its slot. -/
inductive DLabel where
  | spawn (i : Nat)
  | finish (i : Nat) (r : LookupResult)
deriving DecidableEq, Repr

/-- One step of the dispatch loop with request count `R` and semaphore
capacity `C`.  The main loop can spawn the goroutine for the current
index only while `i < R` (line 95) and only after acquiring a slot in
the buffered channel of capacity `C` (line 97), which blocks while `C`
slots are held.  A goroutine for an in-flight index can finish at any
time, with any lookup result. -/
inductive DStep (R C : Nat) : DispatchState → DLabel → DispatchState → Prop
  | spawn {s : DispatchState} (h1 : s.nextIndex < R) (h2 : s.inFlight.card < C) :
      DStep R C s (.spawn s.nextIndex) ⟨s.nextIndex + 1, insert s.nextIndex s.inFlight⟩
  | finish {s : DispatchState} {i : Nat} (r : LookupResult) (h : i ∈ s.inFlight) :
      DStep R C s (.finish i r) ⟨s.nextIndex, s.inFlight.erase i⟩

/-- A finite execution of the dispatch loop: the list of events taking
one state to another. -/
inductive Trace (R C : Nat) : DispatchState → List DLabel → DispatchState → Prop
  | nil (s : DispatchState) : Trace R C s [] s
  | cons {s₁ s₂ s₃ : DispatchState} {l : DLabel} {ls : List DLabel} :
      DStep R C s₁ l s₂ → Trace R C s₂ ls s₃ → Trace R C s₁ (l :: ls) s₃

/-- The request indices handed to goroutines along a trace, in event
order. -/
def spawnedIndices : List DLabel → List Nat
  | [] => []
  | .spawn i :: ls => i :: spawnedIndices ls
  | .finish _ _ :: ls => spawnedIndices ls

/-- Phase of one goroutine with respect to the unsynchronized increment
`successfulQueries++` (main.go line 116), which compiles to a plain
load of the shared counter followed by a store of the loaded value plus
one, with no atomic instruction and no lock held. -/
inductive IncPhase where
  | idle
  | loadedVal (v : Nat)
  | finished
deriving DecidableEq, Repr

/-- Shared counter plus the increment phase of two goroutines whose
lookups both found a row, as in a run with R = 2, C = 2 against a store
where both keys exist. -/
structure RaceState where
  counter : Nat
  w1 : IncPhase
  w2 : IncPhase
deriving DecidableEq, Repr

/-- Interleaved execution of the two unsynchronized increments: each
goroutine first loads the shared counter, then stores the loaded value
plus one.  Nothing orders the four memory accesses, exactly as in the
Go source where `successfulQueries++` is guarded by no mutex and uses
no atomic operation. -/
inductive RaceStep : RaceState → RaceState → Prop
  | load1 {s : RaceState} : s.w1 = .idle → RaceStep s ⟨s.counter, .loadedVal s.counter, s.w2⟩
  | store1 {s : RaceState} {v : Nat} : s.w1 = .loadedVal v → RaceStep s ⟨v + 1, .finished, s.w2⟩
  | load2 {s : RaceState} : s.w2 = .idle → RaceStep s ⟨s.counter, s.w1, .loadedVal s.counter⟩
  | store2 {s : RaceState} {v : Nat} : s.w2 = .loadedVal v → RaceStep s ⟨v + 1, s.w1, .finished⟩

/-- Invariant of the dispatch loop: the loop variable never passes `R`,
every in-flight index was already dispatched, and at most `C` semaphore
slots are held. -/
def DInv (R C : Nat) (s : DispatchState) : Prop :=
  s.nextIndex ≤ R ∧ s.inFlight ⊆ Finset.range s.nextIndex ∧ s.inFlight.card ≤ C

/-- The fully serialized schedule: each goroutine is spawned and runs to
completion (with lookup result `f i`) before the next loop iteration.
This is the schedule the semaphore forces when C = 1, and is one legal
schedule for every C ≥ 1. -/
def serialSchedule (f : Nat → LookupResult) : Nat → List DLabel
  | 0 => []
  | n + 1 => serialSchedule f n ++ [.spawn n, .finish n (f n)]

/-- Mock store client whose lookups all find a row. -/
def allFound : Nat → LookupResult := fun _ => .found

/-- Mock store client whose lookups all fail with a network error. -/
def alwaysFails : Nat → LookupResult := fun _ => .failed "network error"

/-- Mock store client that never finds a row. -/
def trivialClient : Nat → QueryKey → LookupResult := fun _ _ => .notFound

/-- Mock store client for the spec scenario: every third call (call
indices 0, 3, 6, ...) raises a transient error, the rest find a row. -/
def everyThirdFails : Nat → QueryKey → LookupResult :=
  fun i _ => if i % 3 = 0 then .failed "transient error" else .found

/-- A one-element key sequence for concrete runs. -/
def oneKey : List QueryKey := [⟨"eqp", "strtgy", "job"⟩]

/-- A two-element key sequence for concrete runs. -/
def twoKeys : List QueryKey := [⟨"a", "b", "c"⟩, ⟨"d", "e", "f"⟩]

/- Helper lemmas about the dispatch transition system. -/

theorem DInv_init (R C : Nat) : DInv R C initState :=
  ⟨Nat.zero_le _, Finset.empty_subset _, by simp [initState]⟩

theorem DInv_step {R C : Nat} {s s' : DispatchState} {l : DLabel}
    (h : DStep R C s l s') (hs : DInv R C s) : DInv R C s' := by
  obtain ⟨ha, hb, hc⟩ := hs
  cases h with
  | spawn h1 h2 =>
    refine ⟨h1, ?_, ?_⟩
    · refine Finset.insert_subset (Finset.mem_range.mpr (Nat.lt_succ_self _)) ?_
      exact hb.trans (Finset.range_subset.mpr (Nat.le_succ _))
    · exact le_trans (Finset.card_insert_le _ _) (Nat.succ_le_of_lt h2)
  | finish r h =>
    exact ⟨ha, (Finset.erase_subset _ _).trans hb, le_trans (Finset.card_erase_le) hc⟩

theorem DInv_trace {R C : Nat} {s s' : DispatchState} {ls : List DLabel}
    (h : Trace R C s ls s') (hs : DInv R C s) : DInv R C s' := by
  induction h with
  | nil s => exact hs
  | cons step _ ih => exact ih (DInv_step step hs)

theorem reach_inv {R C : Nat} {s : DispatchState} {ls : List DLabel}
    (h : Trace R C initState ls s) : DInv R C s :=
  DInv_trace h (DInv_init R C)

theorem trace_append {R C : Nat} {s t u : DispatchState} {xs ys : List DLabel}
    (h1 : Trace R C s xs t) (h2 : Trace R C t ys u) : Trace R C s (xs ++ ys) u := by
  induction h1 with
  | nil s => exact h2
  | cons step _ ih => exact Trace.cons step (ih h2)

theorem trace_split {R C : Nat} {s u : DispatchState} {xs ys : List DLabel}
    (h : Trace R C s (xs ++ ys) u) : ∃ t, Trace R C s xs t ∧ Trace R C t ys u := by
  induction xs generalizing s with
  | nil => exact ⟨s, Trace.nil s, h⟩
  | cons l xs ih =>
    cases h with
    | cons step rest =>
      obtain ⟨t, h1, h2⟩ := ih rest
      exact ⟨t, Trace.cons step h1, h2⟩

theorem dstep_det {R C : Nat} {s s₁ s₂ : DispatchState} {l : DLabel}
    (h1 : DStep R C s l s₁) (h2 : DStep R C s l s₂) : s₁ = s₂ := by
  cases h1 <;> cases h2 <;> rfl

theorem trace_det {R C : Nat} {s s₁ s₂ : DispatchState} {ls : List DLabel}
    (h1 : Trace R C s ls s₁) (h2 : Trace R C s ls s₂) : s₁ = s₂ := by
  induction h1 generalizing s₂ with
  | nil s => cases h2 with | nil s => rfl
  | cons step rest ih =>
    cases h2 with
    | cons step2 rest2 =>
      cases dstep_det step step2
      exact ih rest2

theorem dstep_nextIndex_le {R C : Nat} {s s' : DispatchState} {l : DLabel}
    (h : DStep R C s l s') : s.nextIndex ≤ s'.nextIndex := by
  cases h with
  | spawn h1 h2 => exact Nat.le_succ _
  | finish r h => exact le_refl _

theorem trace_nextIndex_le {R C : Nat} {s s' : DispatchState} {ls : List DLabel}
    (h : Trace R C s ls s') : s.nextIndex ≤ s'.nextIndex := by
  induction h with
  | nil s => exact le_refl _
  | cons step _ ih => exact le_trans (dstep_nextIndex_le step) ih

theorem spawnedIndices_trace {R C : Nat} {s s' : DispatchState} {ls : List DLabel}
    (h : Trace R C s ls s') :
    spawnedIndices ls = List.range' s.nextIndex (s'.nextIndex - s.nextIndex) := by
  induction h with
  | nil s => simp [spawnedIndices]
  | cons step rest ih =>
    cases step with
    | spawn h1 h2 =>
      have hle : _ + 1 ≤ _ := trace_nextIndex_le rest
      simp only [spawnedIndices, ih]
      have hsub : ∀ a b : Nat, a + 1 ≤ b → b - a = (b - (a + 1)) + 1 := by omega
      rw [hsub _ _ hle, List.range'_succ]
    | finish r hmem =>
      simpa [spawnedIndices] using ih

theorem spawned_from_init {R C : Nat} {s : DispatchState} {ls : List DLabel}
    (h : Trace R C initState ls s) : spawnedIndices ls = List.range s.nextIndex := by
  rw [spawnedIndices_trace h, List.range_eq_range']
  rfl

theorem serialSchedule_trace {R C : Nat} (hC : 0 < C) (f : Nat → LookupResult) :
    ∀ n, n ≤ R → Trace R C initState (serialSchedule f n) ⟨n, ∅⟩ := by
  intro n
  induction n with
  | zero => intro _; exact Trace.nil initState
  | succ n ih =>
    intro hn
    have t1 : Trace R C initState (serialSchedule f n) ⟨n, ∅⟩ :=
      ih (Nat.le_of_succ_le hn)
    have step1 : DStep R C ⟨n, ∅⟩ (.spawn n) ⟨n + 1, insert n ∅⟩ :=
      DStep.spawn (Nat.lt_of_succ_le hn) (by simpa using hC)
    have step2 : DStep R C ⟨n + 1, insert n ∅⟩ (.finish n (f n))
        ⟨n + 1, (insert n (∅ : Finset Nat)).erase n⟩ :=
      DStep.finish (f n) (Finset.mem_insert_self n ∅)
    have tail : Trace R C ⟨n + 1, (insert n (∅ : Finset Nat)).erase n⟩ [] ⟨n + 1, ∅⟩ := by
      rw [Finset.erase_insert (Finset.not_mem_empty n)]
      exact Trace.nil _
    exact trace_append t1 (Trace.cons step1 (Trace.cons step2 tail))

theorem finish_mem_serialSchedule (f : Nat → LookupResult) :
    ∀ n i, i < n → DLabel.finish i (f i) ∈ serialSchedule f n := by
  intro n
  induction n with
  | zero => intro i hi; exact absurd hi (Nat.not_lt_zero i)
  | succ n ih =>
    intro i hi
    rcases Nat.lt_succ_iff_lt_or_eq.mp hi with hlt | heq
    · exact List.mem_append_left _ (ih i hlt)
    · subst heq
      exact List.mem_append_right _ (by simp)

theorem spawnedIndices_serialSchedule (f : Nat → LookupResult) :
    ∀ n, spawnedIndices (serialSchedule f n) = List.range n := by
  intro n
  have := serialSchedule_trace (R := n) (C := 1) Nat.one_pos f n (le_refl n)
  simpa using spawned_from_init this

theorem foldl_workerStep_lookups (allKeys : List QueryKey)
    (client : Nat → QueryKey → LookupResult) :
    ∀ (l : List Nat) (acc : RunResult),
      (l.foldl (workerStep allKeys client) acc).lookups = acc.lookups + l.length := by
  intro l
  induction l with
  | nil => intro acc; simp
  | cons i l ih =>
    intro acc
    rw [List.foldl_cons, ih]
    simp [workerStep]
    omega

/- Claim theorems. -/

/-- Claim C5: if the request count is non-positive, or the concurrency
level is non-positive, or the key sequence is empty, main rejects the
configuration with a fatal error (lines 34-35, 38-39, 58-59) before the
dispatch loop, so no worker is launched and no lookup is attempted. -/
theorem invalid_config_rejected (concurrency numQueries : Int) (allKeys : List QueryKey)
    (client : Nat → QueryKey → LookupResult)
    (h : numQueries ≤ 0 ∨ concurrency ≤ 0 ∨ allKeys = []) :
    (∃ msg, mainModel concurrency numQueries allKeys client = Except.error msg) ∧
    lookupsAttempted (mainModel concurrency numQueries allKeys client) = 0 := by
  have herr : ∃ msg, mainModel concurrency numQueries allKeys client = Except.error msg := by
    unfold mainModel
    split_ifs with h1 h2 h3
    · exact ⟨_, rfl⟩
    · exact ⟨_, rfl⟩
    · exact ⟨_, rfl⟩
    · rcases h with h | h | h
      · exact absurd h h2
      · exact absurd h h1
      · exact absurd (by simp [h]) h3
  refine ⟨herr, ?_⟩
  obtain ⟨msg, hm⟩ := herr
  rw [hm]
  rfl

/-- Witness for C5: the concrete configuration C = 0, R = 5 with a
one-element key list is rejected and performs no lookup. -/
theorem invalid_config_rejected_witness :
    (∃ msg, mainModel 0 5 oneKey trivialClient = Except.error msg) ∧
    lookupsAttempted (mainModel 0 5 oneKey trivialClient) = 0 :=
  invalid_config_rejected 0 5 oneKey trivialClient (Or.inr (Or.inl (by norm_num)))

/-- Claim C6: the worker interprets each lookup result into exactly one
of three mutually exclusive outcomes: a found row increments the counter
and logs nothing (lines 114-117), a missing row neither increments nor
logs, and a failed lookup logs the cause without incrementing
(lines 119-121); no request is recorded as more than one outcome. -/
theorem lookup_outcome_trichotomy (r : LookupResult) :
    ¬(recordsSuccess r = true ∧ logsFailure r = true) ∧
    ((recordsSuccess r = true ∧ logsFailure r = false ∧ r = .found) ∨
     (recordsSuccess r = false ∧ logsFailure r = false ∧ r = .notFound) ∨
     (recordsSuccess r = false ∧ logsFailure r = true ∧ ∃ c, r = .failed c)) := by
  cases r <;> simp [recordsSuccess, logsFailure, scanReturnsRow, closeError]

/-- Claim C7: an individual lookup failure is absorbed by the worker -
logged with its index and cause, not counted as a success - and never
stops the run: every run performs all R lookups whatever the client
does, and the spec scenario (every third call fails, R = 9) completes
with 6 successes, 3 logged failures and all 9 lookups performed. -/
theorem failures_isolated_run_completes :
    (∀ (R : Nat) (allKeys : List QueryKey) (client : Nat → QueryKey → LookupResult),
      (runSequential R allKeys client).lookups = R) ∧
    runSequential 9 oneKey everyThirdFails =
      ⟨6, [(0, "transient error"), (3, "transient error"), (6, "transient error")], 9⟩ := by
  constructor
  · intro R allKeys client
    unfold runSequential
    rw [foldl_workerStep_lookups]
    simp
  · rfl

/-- Claim C9: the index-to-key mapping of line 104 is the pure function
`allKeys[queryID % len(allKeys)]`: for every non-empty key sequence and
every index, it returns exactly the element at position
`i mod length`, so it does not depend on scheduling or concurrency. -/
theorem keyFor_eq_index_mod (allKeys : List QueryKey) (h : allKeys ≠ []) (i : Nat) :
    keyFor allKeys i =
      allKeys.get ⟨i % allKeys.length, Nat.mod_lt i (List.length_pos.mpr h)⟩ := by
  unfold keyFor
  rw [List.getD_eq_getElem _ _ (Nat.mod_lt i (List.length_pos.mpr h))]
  simp [List.get_eq_getElem]

/-- Witness for C9: with a two-element key sequence, request index 3 is
served with the key at position 3 mod 2 = 1. -/
theorem keyFor_eq_index_mod_witness : keyFor twoKeys 3 = ⟨"d", "e", "f"⟩ := by
  rw [keyFor_eq_index_mod twoKeys (by decide) 3]
  rfl

/-- Claim C3: along every execution of the dispatch loop - in
particular no matter how long individual lookups block, since finish
events may be delayed arbitrarily - the number of goroutines holding a
semaphore slot never exceeds min(C, R): the buffered channel bounds it
by C, and only already-dispatched, pairwise distinct indices below R can
be in flight. -/
theorem inflight_never_exceeds_min (R C : Nat) (ls : List DLabel) (s : DispatchState)
    (h : Trace R C initState ls s) : s.inFlight.card ≤ min C R := by
  obtain ⟨ha, hb, hc⟩ := reach_inv h
  refine le_min hc ?_
  calc s.inFlight.card ≤ (Finset.range s.nextIndex).card := Finset.card_le_card hb
    _ = s.nextIndex := Finset.card_range _
    _ ≤ R := ha

/-- Witness for C3: after the first spawn of a run with R = C = 1,
exactly one lookup is in flight, within the bound min(1, 1). -/
theorem inflight_never_exceeds_min_witness :
    (DispatchState.mk 1 (insert 0 ∅)).inFlight.card ≤ min 1 1 :=
  inflight_never_exceeds_min 1 1 [.spawn 0] _
    (Trace.cons (DStep.spawn (by decide) (by decide)) (Trace.nil _))

/-- Claim C2: every complete run with a valid configuration services
exactly the indices 0, ..., R-1, each handed to exactly one goroutine
exactly once (no duplicates, no omissions), and the keys resolved via
the index-to-key mapping are exactly those of the indices 0, ..., R-1. -/
theorem run_services_each_index_exactly_once (R C : Nat) (allKeys : List QueryKey)
    (ls : List DLabel) (s : DispatchState)
    (hR : 1 ≤ R) (hC : 1 ≤ C) (hkeys : allKeys ≠ [])
    (h : Trace R C initState ls s) (hloop : s.nextIndex = R) (hjoin : s.inFlight = ∅) :
    spawnedIndices ls = List.range R ∧ (spawnedIndices ls).Nodup ∧
    (∀ i, i ∈ spawnedIndices ls ↔ i < R) ∧
    (spawnedIndices ls).map (keyFor allKeys) = (List.range R).map (keyFor allKeys) := by
  have he : spawnedIndices ls = List.range R := by rw [spawned_from_init h, hloop]
  refine ⟨he, ?_, ?_, by rw [he]⟩
  · rw [he]; exact List.nodup_range R
  · intro i; rw [he]; exact List.mem_range

/-- Witness for C2: the complete serialized run with R = C = 1 services
exactly index 0. -/
theorem run_services_each_index_exactly_once_witness :
    spawnedIndices (serialSchedule allFound 1) = List.range 1 ∧
    (spawnedIndices (serialSchedule allFound 1)).Nodup ∧
    (∀ i, i ∈ spawnedIndices (serialSchedule allFound 1) ↔ i < 1) ∧
    (spawnedIndices (serialSchedule allFound 1)).map (keyFor oneKey) =
      (List.range 1).map (keyFor oneKey) :=
  run_services_each_index_exactly_once 1 1 oneKey (serialSchedule allFound 1) ⟨1, ∅⟩
    (le_refl 1) (le_refl 1) (by decide)
    (serialSchedule_trace Nat.one_pos allFound 1 (le_refl 1)) rfl rfl

/-- Claim C10: the loop hands indices to goroutines in strictly
increasing order 0, 1, ..., (the spawned indices of any partial
execution form the contiguous range up to the loop variable), and the
spawn of index i happens only from a state where the in-flight set is a
subset of 0..i-1 of size strictly below C, because the semaphore slot is
acquired before the `go` statement. -/
theorem spawn_order_increasing_and_slot_gated (R C : Nat) (ls : List DLabel)
    (s : DispatchState) (h : Trace R C initState ls s) :
    spawnedIndices ls = List.range s.nextIndex ∧
    (∀ pre i post, ls = pre ++ DLabel.spawn i :: post →
      ∀ t, Trace R C initState pre t →
        i = t.nextIndex ∧ t.inFlight.card < C ∧ t.inFlight ⊆ Finset.range i) := by
  refine ⟨spawned_from_init h, ?_⟩
  intro pre i post heq t ht
  subst heq
  obtain ⟨t', h1, h2⟩ := trace_split h
  cases trace_det ht h1
  obtain ⟨ha, hb, hc⟩ := reach_inv ht
  cases h2 with
  | cons step rest =>
    cases step with
    | spawn hlt hcard => exact ⟨rfl, hcard, hb⟩

/-- Witness for C10: applied to the complete serialized run with
R = C = 1 ending at the joined state. -/
theorem spawn_order_increasing_and_slot_gated_witness :
    spawnedIndices (serialSchedule allFound 1) =
      List.range (DispatchState.mk 1 ∅).nextIndex ∧
    (∀ pre i post, serialSchedule allFound 1 = pre ++ DLabel.spawn i :: post →
      ∀ t, Trace 1 1 initState pre t →
        i = t.nextIndex ∧ t.inFlight.card < 1 ∧ t.inFlight ⊆ Finset.range i) :=
  spawn_order_increasing_and_slot_gated 1 1 (serialSchedule allFound 1) ⟨1, ∅⟩
    (serialSchedule_trace Nat.one_pos allFound 1 (le_refl 1))

/-- Claim C8 (amended): the dispatch loop spawns one goroutine per
request index - exactly R worker units over a complete run, not
min(C, R) of them; the semaphore merely bounds how many are
simultaneously in flight. -/
theorem goroutines_spawned_eq_requests (R C : Nat) (ls : List DLabel) (s : DispatchState)
    (h : Trace R C initState ls s) (hloop : s.nextIndex = R) :
    (spawnedIndices ls).length = R := by
  rw [spawned_from_init h, hloop, List.length_range]

/-- Witness for C8 (amended): the complete run with R = C = 1 spawns
exactly one goroutine. -/
theorem goroutines_spawned_eq_requests_witness :
    (spawnedIndices (serialSchedule allFound 1)).length = 1 :=
  goroutines_spawned_eq_requests 1 1 (serialSchedule allFound 1) ⟨1, ∅⟩
    (serialSchedule_trace Nat.one_pos allFound 1 (le_refl 1)) rfl

/-- Counterexample for C8 as stated: a complete run with R = 5, C = 2
(here under the serialized schedule, which the code permits) spawns 5
worker goroutines, not min(C, R) = 2: the loop on line 95 runs one `go`
statement per request index. -/
theorem spawn_count_not_min_cex :
    Trace 5 2 initState (serialSchedule allFound 5) ⟨5, ∅⟩ ∧
    (spawnedIndices (serialSchedule allFound 5)).length = 5 ∧
    (spawnedIndices (serialSchedule allFound 5)).length ≠ min 2 5 := by
  refine ⟨serialSchedule_trace (by norm_num) allFound 5 (le_refl 5), ?_, ?_⟩
  · rw [spawnedIndices_serialSchedule, List.length_range]
  · rw [spawnedIndices_serialSchedule, List.length_range]
    decide

/-- Claim C4: for every R and every C ≥ 1, and every assignment of
lookup results to workers (including all-failing lookups), the joined
state - loop finished, no goroutine still running, which is exactly
when `wg.Wait()` on line 125 returns - is reachable, with every worker
having finished; moreover the dispatcher cannot get stuck anywhere
else: every reachable state with no enabled step is the joined state
(no deadlock, no leaked goroutine). -/
theorem full_join_no_deadlock (R C : Nat) (hC : 1 ≤ C) (f : Nat → LookupResult) :
    (∃ ls, Trace R C initState ls ⟨R, ∅⟩ ∧
      ∀ i, i < R → DLabel.finish i (f i) ∈ ls) ∧
    (∀ ls s, Trace R C initState ls s → (∀ l s', ¬ DStep R C s l s') → s = ⟨R, ∅⟩) := by
  constructor
  · exact ⟨serialSchedule f R, serialSchedule_trace hC f R (le_refl R),
      fun i hi => finish_mem_serialSchedule f R i hi⟩
  · intro ls s h hstuck
    obtain ⟨ha, hb, hc⟩ := reach_inv h
    have hempty : s.inFlight = ∅ := by
      by_contra hne
      obtain ⟨i, hi⟩ := Finset.nonempty_iff_ne_empty.mpr hne
      exact hstuck _ _ (DStep.finish (f i) hi)
    have hR : s.nextIndex = R := by
      by_contra hne
      have hlt : s.nextIndex < R := lt_of_le_of_ne ha hne
      have hcard : s.inFlight.card < C := by
        rw [hempty, Finset.card_empty]
        exact hC
      exact hstuck _ _ (DStep.spawn hlt hcard)
    have : (⟨s.nextIndex, s.inFlight⟩ : DispatchState) = ⟨R, ∅⟩ := by rw [hR, hempty]
    exact this

/-- Witness for C4: with R = C = 1 and an always-failing store client,
the joined state is reachable and is the only stuck state. -/
theorem full_join_no_deadlock_witness :
    (∃ ls, Trace 1 1 initState ls ⟨1, ∅⟩ ∧
      ∀ i, i < 1 → DLabel.finish i (alwaysFails i) ∈ ls) ∧
    (∀ ls s, Trace 1 1 initState ls s → (∀ l s', ¬ DStep 1 1 s l s') → s = ⟨1, ∅⟩) :=
  full_join_no_deadlock 1 1 (le_refl 1) alwaysFails

/-- Claim C1 (code-bug evidence): `successfulQueries++` on line 116 is a
plain read-modify-write on the shared counter, with no atomic operation
and no lock.  With two goroutines whose lookups both found a row (R = 2,
C = 2, every key present), the interleaving where both load the counter
before either stores loses an update and ends with counter 1, while the
serialized interleaving - the only one possible at C = 1 - ends with
counter 2.  So the final count is schedule-dependent and not identical
across concurrency levels, contradicting the spec requirement of an
atomic increment or critical section. -/
theorem successCounter_lost_update :
    Relation.ReflTransGen RaceStep ⟨0, .idle, .idle⟩ ⟨1, .finished, .finished⟩ ∧
    Relation.ReflTransGen RaceStep ⟨0, .idle, .idle⟩ ⟨2, .finished, .finished⟩ := by
  constructor
  · exact .head (RaceStep.load1 rfl) (.head (RaceStep.load2 rfl)
      (.head (RaceStep.store1 rfl) (.head (RaceStep.store2 rfl) .refl)))
  · exact .head (RaceStep.load1 rfl) (.head (RaceStep.store1 rfl)
      (.head (RaceStep.load2 rfl) (.head (RaceStep.store2 rfl) .refl)))

end DaoCass
